import Mathlib

/-!
Verification development for the veve test-execution engine.

The definitions below shallowly embed the scheduler (`src/framework/Run.ts`)
and the assertion evaluator (`src/framework/Assertion.ts`).  Asynchronous
TypeScript code is modelled by explicit outcome-passing: the runtime
behaviour of a test/hook body is a function from attempt index to an
observable behaviour, and `await`-ing a promise that never settles is
modelled by the `Option` monad (`none` = the awaiting code never resumes).

Parts of the repository that the scheduler and evaluator depend on but whose
sources are not present (`TestCase.ts`, `Fn.ts`, `Diff.js`) are modelled from
the specification; each such definition carries a doc comment saying so.
-/

namespace Veve

/-- Error value carried by a failed result: the `{message, stack}` pair that
`Run.execute` stores in `result.error`. -/
structure JSErr where
  message : String
  stack : String
  deriving DecidableEq, Repr

/-- Modelled from the spec: terminal status of one test/hook execution
(§3 Execution Result); the TypeScript strings are
"passed" / "failed" / "skipped" / "soft-fail".  `TestCase.ts` (which declares
the corresponding union type) is absent from the sources. -/
inductive ExecStatus
  | passed
  | failed
  | skipped
  | softFail
  deriving DecidableEq, Repr

/-- Modelled from the spec: the Execution Result record (§3) produced by
`Run.execute`: `{ description, retries, status, error? }`. -/
structure ExecResult where
  description : String
  retries : Nat
  status : ExecStatus
  error : Option JSErr
  deriving DecidableEq, Repr

/-- Modelled from the spec: the `if` option of §3 Options,
`boolean | predicate`, where the whole field may also be undefined or null.
A callable condition is modelled by the value it settles to:
`some b` for a boolean, `none` for null/undefined. -/
inductive CondValue
  | undef
  | null
  | boolean (b : Bool)
  | callable (settlesTo : Option Bool)
  deriving DecidableEq, Repr

/-- Modelled from the spec: §3 Options as destructured by `Run.execute`:
`{ timeout, skip, if, softFail, retry }`.  The TypeScript field `if` is a
reserved word in Lean and is embedded as `condIf`. -/
structure Options where
  timeout : Nat
  skip : Bool
  condIf : CondValue
  softFail : Bool
  retry : Nat
  deriving DecidableEq, Repr

/-- A registered test or hook as consumed by `Run.execute`:
`{ description, fn, options }`.  The body `fn` is kept out of the record;
its runtime behaviour is passed to `execute` separately, as a function from
attempt index to behaviour. -/
structure Executable where
  description : String
  options : Options
  deriving DecidableEq, Repr

/-- Observable behaviour of one invocation of a test/hook body:
it either fulfills after `afterMs` milliseconds, rejects with an error after
`afterMs` milliseconds, or never settles. -/
inductive FnBehavior
  | fulfills (afterMs : Nat)
  | rejects (e : JSErr) (afterMs : Nat)
  | neverSettles
  deriving DecidableEq, Repr

/-- Whether an invocation settles strictly before a timer of `t` ms fires. -/
def settlesWithin (b : FnBehavior) (t : Nat) : Bool :=
  match b with
  | .fulfills a => a < t
  | .rejects _ a => a < t
  | .neverSettles => false

/-- The synthetic error produced when the timeout race is lost
(`Run.execute`, lines 52-58): message `"<description> exceeded <timeout> ms."`.
The stack text of a freshly constructed `Error` is runtime-dependent and is
abstracted by a fixed placeholder. -/
def timeoutErr (description : String) (timeout : Nat) : JSErr :=
  { message := description ++ " exceeded " ++ toString timeout ++ " ms."
    stack := "Error" }

/-- Outcome of `await fn()` with no timer raced: `some none` = fulfilled,
`some (some e)` = rejected with `e`, `none` = the await never resumes. -/
def settledOutcome (b : FnBehavior) : Option (Option JSErr) :=
  match b with
  | .fulfills _ => some none
  | .rejects e _ => some (some e)
  | .neverSettles => none

/-- One attempt of the try-block of `Run.execute` (lines 49-62): when
`timeout > 0` the invocation is raced against a `setTimeout` timer and losing
the race yields the synthetic timeout error; when `timeout = 0` the
invocation is awaited directly. -/
def runAttempt (description : String) (timeout : Nat) (b : FnBehavior) :
    Option (Option JSErr) :=
  if timeout > 0 then
    if settlesWithin b timeout then settledOutcome b
    else some (some (timeoutErr description timeout))
  else
    settledOutcome b

/-- Embedding of `Run.evaluateCondition` (lines 93-100): a callable is
invoked and its settled value defaulted with `?? false`; a plain value is
defaulted with `?? true`. -/
def evaluateCondition (cond : CondValue) : Bool :=
  match cond with
  | .callable r => r.getD false
  | .boolean b => b
  | .undef => true
  | .null => true

/-- The TypeScript test `condition === undefined`. -/
def isUndefC (cond : CondValue) : Bool :=
  match cond with
  | .undef => true
  | _ => false

/-- The TypeScript test `condition === null`. -/
def isNullC (cond : CondValue) : Bool :=
  match cond with
  | .null => true
  | _ => false

/-- The skip gate of `Run.execute` (lines 35-40):
`skip || condition === undefined || condition === null ||
!(await this.evaluateCondition(condition))`. -/
def gateSkips (skip : Bool) (cond : CondValue) : Bool :=
  skip || isUndefC cond || isNullC cond || !(evaluateCondition cond)

/-- The final failed result of the attempt loop (lines 71-85): on the last
failed attempt the status becomes `soft-fail` (with a `"Soft failure: "`
prefixed message) when `softFail` is set, else `failed`. -/
def finalFailure (description : String) (retry : Nat) (softFail : Bool)
    (e : JSErr) : ExecResult :=
  if softFail then
    { description := description
      retries := retry + 1
      status := .softFail
      error := some { message := "Soft failure: " ++ e.message, stack := e.stack } }
  else
    { description := description
      retries := retry + 1
      status := .failed
      error := some e }

/-- The `while (result.retries <= retry)` loop of `Run.execute`
(lines 47-88).  `retries` is the current retry count, `fuel` the number of
loop iterations still permitted by the guard (`retry + 1 - retries`); the
second component of the returned pair counts how many times the body `fn`
was invoked from this point on.  A `none` result means the loop is awaiting
an invocation that never settles. -/
def executeLoop (description : String) (timeout retry : Nat) (softFail : Bool)
    (env : Nat → FnBehavior) : Nat → Nat → Option (ExecResult × Nat)
  | retries, 0 =>
      some ({ description := description, retries := retries,
              status := .passed, error := none }, 0)
  | retries, fuel + 1 =>
      match runAttempt description timeout (env retries) with
      | none => none
      | some none =>
          some ({ description := description, retries := retries,
                  status := .passed, error := none }, 1)
      | some (some e) =>
          if retries + 1 > retry then
            some (finalFailure description retry softFail e, 1)
          else
            (executeLoop description timeout retry softFail env
                (retries + 1) fuel).map (fun rc => (rc.1, rc.2 + 1))

/-- Embedding of `Run.execute` (lines 23-91).  `env n` is the behaviour of
the n-th invocation of the body (0-indexed).  The result pairs the
execution result with the number of times the body was invoked;
`none` means the execution never completes. -/
def execute (ex : Executable) (env : Nat → FnBehavior) :
    Option (ExecResult × Nat) :=
  if gateSkips ex.options.skip ex.options.condIf then
    some ({ description := ex.description, retries := 0,
            status := .skipped, error := none }, 0)
  else
    executeLoop ex.description ex.options.timeout ex.options.retry
      ex.options.softFail env 0 (ex.options.retry + 1)

/-- Modelled from the spec: the aggregated counters of §3 Report
(`{total, passed, failed, skipped, softFailed}`); `TestCase.ts` is absent. -/
structure Stats where
  total : Nat
  passed : Nat
  failed : Nat
  skipped : Nat
  softFailed : Nat
  deriving DecidableEq, Repr

/-- Modelled from the spec: the overall report status, `passed | failed`. -/
inductive RunStatus
  | passed
  | failed
  deriving DecidableEq, Repr

/-- Modelled from the spec: the §3 Report structure built by `Run.run`. -/
structure TestReport where
  stats : Stats
  status : RunStatus
  description : String
  tests : List ExecResult
  hooks : List ExecResult
  deriving DecidableEq, Repr

/-- Modelled from the spec: at most one hook per phase (§3 Hook), as read by
`Run.run` from `testCase.hooks`. -/
structure Hooks where
  beforeAll : Option Executable
  beforeEach : Option Executable
  afterEach : Option Executable
  afterAll : Option Executable
  deriving DecidableEq, Repr

/-- Modelled from the spec: the test-registry fields of `TestCase` that
`Run.run` reads: suite description, registered tests, the only-marked
subset, and the per-phase hooks. -/
structure TestCase where
  description : String
  tests : List Executable
  onlyTests : List Executable
  hooks : Hooks
  deriving DecidableEq, Repr

/-- Test selection in `Run.run` (lines 125-128):
`onlyTests.length > 0 ? onlyTests : tests`. -/
def selectedTests (tc : TestCase) : List Executable :=
  if tc.onlyTests.length > 0 then tc.onlyTests else tc.tests

/-- Embedding of `MAX_PARALLEL_TESTS = cpus().length || 4` (line 18): the JavaScript `||`
falls back to 4 exactly when the cpu count is the falsy value 0. -/
def maxParallelTests (cpuCount : Nat) : Nat :=
  if cpuCount == 0 then 4 else cpuCount

/-- Fuel-indexed batching helper: repeatedly slice off `width` elements.
The fuel bounds the number of slices; `batches` supplies enough fuel for
any positive width. -/
def batchesAux (width : Nat) : Nat → List α → List (List α)
  | 0, _ => []
  | _, [] => []
  | fuel + 1, x :: xs => (x :: xs).take width :: batchesAux width fuel ((x :: xs).drop width)

/-- The batch partition of `Run.run` (lines 133-134):
`testsToRun.slice(i, i + MAX_PARALLEL_TESTS)` for `i = 0, width, 2*width, ...`. -/
def batches (width : Nat) (l : List α) : List (List α) :=
  batchesAux width l.length l

/-- One step of the per-result aggregation of `Run.run` (lines 161-171),
restricted to the counters. -/
def tallyStats (r : ExecResult) (s : Stats) : Stats :=
  match r.status with
  | .passed => { s with passed := s.passed + 1 }
  | .skipped => { s with skipped := s.skipped + 1 }
  | .softFail => { s with softFailed := s.softFailed + 1 }
  | .failed => { s with failed := s.failed + 1 }

/-- One step of the per-result aggregation of `Run.run` (lines 161-172):
the matching counter is bumped and, in the `else` branch (a failed test),
`report.status` is set to failed. -/
def tallyReport (rep : TestReport) (r : ExecResult) : TestReport :=
  match r.status with
  | .passed => { rep with stats := { rep.stats with passed := rep.stats.passed + 1 } }
  | .skipped => { rep with stats := { rep.stats with skipped := rep.stats.skipped + 1 } }
  | .softFail => { rep with stats := { rep.stats with softFailed := rep.stats.softFailed + 1 } }
  | .failed =>
      { rep with stats := { rep.stats with failed := rep.stats.failed + 1 }
                 status := .failed }

/-- The stats obtained by tallying a list of test results starting from the
freshly initialised counters with `total` already set (line 130). -/
def statsFrom (total : Nat) (rs : List ExecResult) : Stats :=
  rs.foldl (fun s r => tallyStats r s) ⟨total, 0, 0, 0, 0⟩

/-- Runtime behaviours for everything `Run.run` executes: the two
once-per-run hooks, and - indexed by the global position of the test in the
selected list - the per-test hooks and the test body itself.  The inner
`Nat → FnBehavior` is the attempt-indexed behaviour consumed by `execute`. -/
structure RunEnv where
  beforeAllEnv : Nat → FnBehavior
  beforeEachEnv : Nat → Nat → FnBehavior
  testEnv : Nat → Nat → FnBehavior
  afterEachEnv : Nat → Nat → FnBehavior
  afterAllEnv : Nat → FnBehavior

/-- The per-test closure of the batch map (lines 137-158): run the
`beforeEach` hook if registered, then the test, then the `afterEach` hook,
returning the hook results produced around the test together with the test
result.  `p.1` is the global index of the test. -/
def processOne (tc : TestCase) (env : RunEnv) (p : Nat × Executable) :
    Option (List ExecResult × ExecResult) := do
  let bh ← match tc.hooks.beforeEach with
    | some h => (execute h (env.beforeEachEnv p.1)).map (fun pr => [pr.1])
    | none => some []
  let tr ← execute p.2 (env.testEnv p.1)
  let ah ← match tc.hooks.afterEach with
    | some h => (execute h (env.afterEachEnv p.1)).map (fun pr => [pr.1])
    | none => some []
  return (bh ++ ah, tr.1)

/-- Sequential model of `Promise.all` over a batch: every element must complete, in order;
if any execution never settles, the whole batch never settles. -/
def mapOption (f : α → Option β) : List α → Option (List β)
  | [] => some []
  | x :: xs => do
      let y ← f x
      let ys ← mapOption f xs
      return y :: ys

/-- The batch loop of `Run.run` (lines 133-173): each batch is fully
processed (tests with their per-test hooks), its test results are appended
to the report (`report.tests.push`, the hook results to `report.hooks`),
and then tallied into the stats and overall status, before the next batch
starts.  Concurrent completion inside a batch only permutes the push order
of `tests`/`hooks` entries; the content is modelled in batch order. -/
def runBatches (tc : TestCase) (env : RunEnv) :
    List (List (Nat × Executable)) → TestReport → Option TestReport
  | [], rep => some rep
  | b :: rest, rep => do
      let prs ← mapOption (processOne tc env) b
      let results := prs.map Prod.snd
      let rep2 := { rep with
        tests := rep.tests ++ results
        hooks := rep.hooks ++ (prs.map Prod.fst).flatten }
      runBatches tc env rest (results.foldl tallyReport rep2)

/-- Embedding of `Run.run` (lines 103-182): initialise the report, run the
`beforeAll` hook, select the tests, set `stats.total`, process the batches,
and run the `afterAll` hook.  `none` means the run never completes
(some awaited execution never settles). -/
def runModel (tc : TestCase) (width : Nat) (env : RunEnv) :
    Option TestReport := do
  let rep0 : TestReport :=
    { stats := ⟨(selectedTests tc).length, 0, 0, 0, 0⟩
      status := .passed
      description := tc.description
      tests := []
      hooks := [] }
  let rep1 ← (match tc.hooks.beforeAll with
    | some h => (execute h env.beforeAllEnv).map
        (fun pr => { rep0 with hooks := rep0.hooks ++ [pr.1] })
    | none => some rep0)
  let rep2 ← runBatches tc env (batches width (selectedTests tc).enum) rep1
  (match tc.hooks.afterAll with
    | some h => (execute h env.afterAllEnv).map
        (fun pr => { rep2 with hooks := rep2.hooks ++ [pr.1] })
    | none => some rep2)

/-- A JavaScript number as far as the embedded code observes it: `NaN`,
negative zero, or an exact value (floating-point rounding is not exercised by
any claim; `val 0` is positive zero). -/
inductive JSNum
  | nan
  | negZero
  | val (q : Rat)
  deriving DecidableEq, Repr

/-- An error object as inspected by `toThrow`: its constructor (class) name
and its message. -/
structure ErrV where
  className : String
  message : String
  deriving DecidableEq, Repr

/-- The universe of JavaScript values the assertion evaluator is modelled
over: undefined, null, booleans, numbers, strings, arrays, plain objects,
error objects, and functions.  Dates, regexps, maps, sets, symbols and
bigints are omitted: no claim exercises them.  A function value carries
its tracker state when it was produced by the `Fn` wrapper
(`some (recorded argument lists, recorded return values)`, modelled from
the spec and the `Fn` docs since `Fn.ts` is absent), and `callResult`, the
behaviour observed when the evaluator itself invokes it (`toThrow`):
`some e` = it throws `e`, `none` = it returns normally.  Reference identity
of composites is abstracted structurally. -/
inductive Value
  | undef
  | null
  | bool (b : Bool)
  | num (n : JSNum)
  | str (s : String)
  | arr (elems : List Value)
  | obj (fields : List (String × Value))
  | errorV (e : ErrV)
  | fn (tracked : Option (List (List Value) × List Value)) (callResult : Option ErrV)

/-- Number equality as the comparator sees it: NaN-insensitive
(spec §4.2: strict identity including NaN short-circuits), with negative
zero distinct from positive zero. -/
def numEq : JSNum → JSNum → Bool
  | .nan, .nan => true
  | .negZero, .negZero => true
  | .val a, .val b => a == b
  | _, _ => false

/-- Own-property lookup in the field list of a plain object. -/
def lookupField (k : String) : List (String × Value) → Option Value
  | [] => none
  | kv :: rest => if kv.1 == k then some kv.2 else lookupField k rest

mutual

/-- Modelled from the spec: the structural equality of the Value Comparator
(§4.2, `Diff.js` is absent from the sources).  Type-tag mismatch is unequal;
arrays are equal iff same length and pairwise equal; plain objects are equal
iff same key-set cardinality and the value at every key is pairwise equal, key
order irrelevant.  Cycle detection and the depth bound are omitted:
inductive values are finite and acyclic, and every claim settled here stays
far below the bound.  Distinct function references are never equal. -/
def vequal : Value → Value → Bool
  | .undef, .undef => true
  | .null, .null => true
  | .bool a, .bool b => a == b
  | .num a, .num b => numEq a b
  | .str a, .str b => a == b
  | .arr a, .arr b => a.length == b.length && vequalList a b
  | .obj a, .obj b => a.length == b.length && vequalSub a b
  | .errorV a, .errorV b => a == b
  | _, _ => false
termination_by a b => sizeOf a + sizeOf b
decreasing_by all_goals (simp_wf <;> omega)

/-- Pairwise structural equality of two element lists. -/
def vequalList : List Value → List Value → Bool
  | [], [] => true
  | x :: xs, y :: ys => vequal x y && vequalList xs ys
  | _, _ => false
termination_by l1 l2 => sizeOf l1 + sizeOf l2
decreasing_by all_goals (simp_wf <;> omega)

/-- Every key of the first field list is present in the second with a
structurally equal value. -/
def vequalSub : List (String × Value) → List (String × Value) → Bool
  | [], _ => true
  | (k, v) :: rest, b => vequalIn k v b && vequalSub rest b
termination_by a b => sizeOf a + sizeOf b
decreasing_by all_goals (simp_wf <;> omega)

/-- Key `k` maps to a value structurally equal to `v` in the field list. -/
def vequalIn (k : String) (v : Value) : List (String × Value) → Bool
  | [] => false
  | (k2, w) :: rest => if k2 == k then vequal v w else vequalIn k v rest
termination_by fields => sizeOf v + sizeOf fields
decreasing_by all_goals (simp_wf <;> omega)

end

/-- The result record of the diff engine as consumed by `Assertion.ts`:
`{ hasDiffs, diffFormatted }`. -/
structure DiffResult where
  hasDiffs : Bool
  diffFormatted : String
  deriving DecidableEq, Repr

/-- Modelled from the spec: the `diff` operation of the Value Comparator
(§4.2; `Diff.js` is absent).  Per §8, `diff(a,b).hasDifferences = !equal(a,b)`.
The formatted rendering is not inspected by any claim and is abstracted by
the empty string. -/
def diff (a b : Value) : DiffResult :=
  { hasDiffs := !(vequal a b), diffFormatted := "" }

/-- JavaScript truthiness of a value. -/
def truthy : Value → Bool
  | .undef => false
  | .null => false
  | .bool b => b
  | .num .nan => false
  | .num .negZero => false
  | .num (.val q) => q != 0
  | .str s => s != ""
  | _ => true

/-- Modelled JS `ToNumber` for string operands: all-whitespace strings are 0,
decimal integer literals parse, anything else is NaN (fractional literals
and surrounding whitespace are abstracted to NaN; no claim exercises them). -/
def strToNum (s : String) : JSNum :=
  if s.data.all Char.isWhitespace then .val 0
  else
    match s.toInt? with
    | some i => .val i
    | none => .nan

/-- Modelled JS `ToNumber` coercion.  `ToPrimitive` on composite values is
abstracted to NaN; no claim exercises it. -/
def toNumberV : Value → JSNum
  | .undef => .nan
  | .null => .val 0
  | .bool b => .val (if b then 1 else 0)
  | .num n => n
  | .str s => strToNum s
  | _ => .nan

/-- The rational denotation of a number, `none` for NaN. -/
def numRat : JSNum → Option Rat
  | .nan => none
  | .negZero => some 0
  | .val q => some q

/-- Code-unit lexicographic order on character lists (JS string relational
comparison). -/
def strLtL : List Char → List Char → Bool
  | [], [] => false
  | [], _ :: _ => true
  | _ :: _, [] => false
  | a :: as, b :: bs => a < b || (a == b && strLtL as bs)

/-- JS `a < b`: string-string compares lexicographically, otherwise both
sides are coerced to numbers and any NaN makes the comparison false. -/
def jsLt (a b : Value) : Bool :=
  match a, b with
  | .str x, .str y => strLtL x.data y.data
  | _, _ =>
      match numRat (toNumberV a), numRat (toNumberV b) with
      | some x, some y => x < y
      | _, _ => false

/-- JS `a <= b` (false whenever a NaN is involved). -/
def jsLe (a b : Value) : Bool :=
  match a, b with
  | .str x, .str y => strLtL x.data y.data || x == y
  | _, _ =>
      match numRat (toNumberV a), numRat (toNumberV b) with
      | some x, some y => x ≤ y
      | _, _ => false

/-- JS `a > b`. -/
def jsGt (a b : Value) : Bool := jsLt b a

/-- JS `a >= b`. -/
def jsGe (a b : Value) : Bool := jsLe b a

/-- Number equality under `===`: NaN equals nothing, negative and positive
zero are identified. -/
def numStrictEq : JSNum → JSNum → Bool
  | .nan, _ => false
  | _, .nan => false
  | .negZero, .negZero => true
  | .negZero, .val q => q == 0
  | .val q, .negZero => q == 0
  | .val a, .val b => a == b

/-- Number equality under `SameValueZero` (used by `Array.prototype.includes`):
like `===` but NaN equals NaN. -/
def numSVZ : JSNum → JSNum → Bool
  | .nan, .nan => true
  | a, b => numStrictEq a b

/-- Embedding of `Object.is` over the modelled value universe (SameValue): NaN equals
NaN, positive and negative zero differ.  Reference identity of composites
is abstracted structurally; functions are never identical. -/
def sameValue (a b : Value) : Bool :=
  match a, b with
  | .undef, .undef => true
  | .null, .null => true
  | .bool x, .bool y => x == y
  | .num x, .num y => numEq x y
  | .str x, .str y => x == y
  | .arr x, .arr y => vequal (.arr x) (.arr y)
  | .obj x, .obj y => vequal (.obj x) (.obj y)
  | .errorV x, .errorV y => x == y
  | _, _ => false

/-- The `===` operator over the modelled value universe: like `sameValue`
except on numbers, where NaN never equals and the two zeros coincide. -/
def jsStrictEq (a b : Value) : Bool :=
  match a, b with
  | .num x, .num y => numStrictEq x y
  | _, _ => sameValue a b

/-- Element membership under `SameValueZero`, as `Array.prototype.includes`
decides it (composites fall back to the structural abstraction of
`sameValue`). -/
def svzEq (a b : Value) : Bool :=
  match a, b with
  | .num x, .num y => numSVZ x y
  | _, _ => sameValue a b

/-- Reading `this.received.constructor.name`: `none` models the TypeError thrown by
accessing `.constructor` on null/undefined. -/
def constructorName : Value → Option String
  | .undef => none
  | .null => none
  | .bool _ => some "Boolean"
  | .num _ => some "Number"
  | .str _ => some "String"
  | .arr _ => some "Array"
  | .obj _ => some "Object"
  | .errorV e => some e.className
  | .fn _ _ => some "Function"

/-- Whether `sub` is a leading segment of `l`. -/
def listStarts : List Char → List Char → Bool
  | [], _ => true
  | _ :: _, [] => false
  | a :: as, b :: bs => a == b && listStarts as bs

/-- Substring containment over character lists. -/
def strIncludesL (sub : List Char) : List Char → Bool
  | [] => sub.isEmpty
  | c :: rest => listStarts sub (c :: rest) || strIncludesL sub rest

/-- JS `String.prototype.includes`. -/
def strIncludes (s sub : String) : Bool := strIncludesL sub.data s.data

/-- JS `Math.round` (half-up) of an exact rational. -/
def jsRound (q : Rat) : Int := (q + 1 / 2).floor

/-- Computes `Math.round(x * 10^digits)` of a coerced operand; `none` models NaN
(and `NaN === NaN` is false, so a NaN operand can never match). -/
def roundMul (n : JSNum) (digits : Nat) : Option Int :=
  (numRat n).map (fun q => jsRound (q * (10 : Rat) ^ digits))

/-- The `.length` property as `toHaveLength` reads it: accessing it on
null/undefined throws (modelled by `.error`), strings and arrays have one,
and other values yield undefined (`.ok none`; function arity is not
modelled). -/
def jsLength : Value → Except Unit (Option Nat)
  | .undef => .error ()
  | .null => .error ()
  | .str s => .ok (some s.length)
  | .arr l => .ok (some l.length)
  | _ => .ok none

/-- Modelled from the spec and the `Fn` docs (`Fn.ts` is absent): a value is
tracked iff it was produced by the `Fn` wrapper; `isFn(received)` tests
exactly that. -/
def isTrackedV : Value → Bool
  | .fn (some _) _ => true
  | _ => false

/-- Value returned by a matcher: the chained assertion object (throwing
mode) or a boolean (boolean mode). -/
inductive AssertReturn
  | chained
  | boolTrue
  | boolFalse
  deriving DecidableEq, Repr

/-- Faults a matcher evaluation can raise: a structured `AssertionError`
(throwing-mode mismatch), the usage `Error` of a tracked-only matcher
applied to an untracked value, or a runtime `TypeError` from a property
access inside the matcher body. -/
inductive AssertFault
  | assertionError (message matcher : String)
  | usageError (message : String)
  | typeError (message : String)
  deriving DecidableEq, Repr

/-- Embedding of `Assertion.assert` (Assertion.ts lines 494-508): apply the
negation toggle, then on failure either throw an `AssertionError`
(throwing mode) or return `false`; on success return the chained assertion
(throwing mode) or `true`. -/
def assertRes (isNot throws cond : Bool) (message matcher : String) :
    Except AssertFault AssertReturn :=
  let passes := if isNot then !cond else cond
  if !passes then
    if throws then .error (.assertionError message matcher) else .ok .boolFalse
  else
    if throws then .ok .chained else .ok .boolTrue

/-- The evaluator state of one assertion expression: the received value and
the `isNot` / `throws` flags of the `Assertion` instance. -/
structure AState where
  received : Value
  isNot : Bool
  throws : Bool

/-- One matcher invocation, with its arguments.  `toBeInstanceOf` carries
the name of the expected class; `toThrow` carries its optional expected
value; the numeric matcher arguments claims exercise are counts and are
modelled as naturals. -/
inductive MatcherCall
  | toBeDefined
  | toBeUndefined
  | toBeNull
  | toBeTruthy
  | toBeFalsy
  | toBeNaN
  | toBeTracked
  | toBeGreaterThan (expected : Value)
  | toBeGreaterThanOrEqual (expected : Value)
  | toBeLessThan (expected : Value)
  | toBeLessThanOrEqual (expected : Value)
  | toBeInstanceOf (className : String)
  | toBeBetween (lo hi : Value)
  | toBeBetweenOrEqual (lo hi : Value)
  | toBeAboveMin (lo : Value)
  | toBeBelowMax (hi : Value)
  | toMatch (expected : Value)
  | toBe (expected : Value)
  | toEqual (expected : Value)
  | toContain (expected : Value)
  | toBeCloseTo (expected : Rat) (numDigits : Nat)
  | toThrow (expected : Option Value)
  | toHaveBeenCalled
  | toHaveBeenCalledTimes (times : Nat)
  | toHaveBeenCalledWith (args : List Value)
  | toHaveBeenLastCalledWith (args : List Value)
  | toHaveBeenNthCalledWith (n : Nat) (args : List Value)
  | toHaveReturned
  | toHaveReturnedTimes (times : Nat)
  | toHaveReturnedWith (value : Value)
  | toHaveLastReturnedWith (value : Value)
  | toHaveNthReturnedWith (n : Nat) (value : Value)
  | toHaveLength (len : Nat)
  | toHaveProperty (keyPath : String) (value : Option Value)

/-- The matchers that demand a tracked received value (each opens with an
`if (!this.isTracked) throw new Error(...)` guard in the source). -/
def trackedOnly : MatcherCall → Bool
  | .toHaveBeenCalled => true
  | .toHaveBeenCalledTimes _ => true
  | .toHaveBeenCalledWith _ => true
  | .toHaveBeenLastCalledWith _ => true
  | .toHaveBeenNthCalledWith _ _ => true
  | .toHaveReturned => true
  | .toHaveReturnedTimes _ => true
  | .toHaveReturnedWith _ => true
  | .toHaveLastReturnedWith _ => true
  | .toHaveNthReturnedWith _ _ => true
  | _ => false

/-- The matcher name as it appears in the guard message and the
`AssertionError` matcher field. -/
def matcherName : MatcherCall → String
  | .toBeDefined => "toBeDefined"
  | .toBeUndefined => "toBeUndefined"
  | .toBeNull => "toBeNull"
  | .toBeTruthy => "toBeTruthy"
  | .toBeFalsy => "toBeFalsy"
  | .toBeNaN => "toBeNaN"
  | .toBeTracked => "toBeTracked"
  | .toBeGreaterThan _ => "toBeGreaterThan"
  | .toBeGreaterThanOrEqual _ => "toBeGreaterThanOrEqual"
  | .toBeLessThan _ => "toBeLessThan"
  | .toBeLessThanOrEqual _ => "toBeLessThanOrEqual"
  | .toBeInstanceOf _ => "toBeInstanceOf"
  | .toBeBetween _ _ => "toBeBetween"
  | .toBeBetweenOrEqual _ _ => "toBeBetweenOrEqual"
  | .toBeAboveMin _ => "toBeAboveMin"
  | .toBeBelowMax _ => "toBeBelowMax"
  | .toMatch _ => "toMatch"
  | .toBe _ => "toBe"
  | .toEqual _ => "toEqual"
  | .toContain _ => "toContain"
  | .toBeCloseTo _ _ => "toBeCloseTo"
  | .toThrow _ => "toThrow"
  | .toHaveBeenCalled => "toHaveBeenCalled"
  | .toHaveBeenCalledTimes _ => "toHaveBeenCalledTimes"
  | .toHaveBeenCalledWith _ => "toHaveBeenCalledWith"
  | .toHaveBeenLastCalledWith _ => "toHaveBeenLastCalledWith"
  | .toHaveBeenNthCalledWith _ _ => "toHaveBeenNthCalledWith"
  | .toHaveReturned => "toHaveReturned"
  | .toHaveReturnedTimes _ => "toHaveReturnedTimes"
  | .toHaveReturnedWith _ => "toHaveReturnedWith"
  | .toHaveLastReturnedWith _ => "toHaveLastReturnedWith"
  | .toHaveNthReturnedWith _ _ => "toHaveNthReturnedWith"
  | .toHaveLength _ => "toHaveLength"
  | .toHaveProperty _ _ => "toHaveProperty"

/-- The guard message of a tracked-only matcher (source:
`"<name> can only be used with tracked functions"`). -/
def usageMsg (name : String) : String :=
  name ++ " can only be used with tracked functions"

/-- Property read for `toHaveProperty` path traversal: own fields of plain
objects; array indices and `length`; the `message` of an error object
(prototype-chain properties beyond these are not modelled). -/
def getProp (v : Value) (k : String) : Option Value :=
  match v with
  | .obj fields => lookupField k fields
  | .arr l =>
      if k == "length" then some (.num (.val (l.length : Rat)))
      else
        match k.toNat? with
        | some i => l[i]?
        | none => none
  | .errorV e => if k == "message" then some (.str e.message) else none
  | _ => none

/-- The key walk of `toHaveProperty` (lines 930-941): each step requires a
non-null object-typed current value that contains the key, else the matcher
asserts false. -/
def walkPath : Value → List String → Option Value
  | v, [] => some v
  | v, k :: rest =>
      match getProp v k with
      | some v2 => walkPath v2 rest
      | none => none

/-- Embedding of the matcher bodies of `Assertion.ts`.  Every matcher
either raises its tracked-only usage guard, raises a runtime `TypeError`
from a property access its body performs on an unsuitable received value,
or computes its pass condition and hands it to `assert` (`assertRes`).
Assertion message text is abstracted to short fixed strings: the claims
under check constrain pass/fail behaviour and fault kinds, not message
wording (the only messages a claim pins down verbatim live in the
scheduler model).  The regexp branches of `toMatch` and `toThrow` are dead
in the modelled value universe, which has no regexp values. -/
def evalMatcher (st : AState) : MatcherCall → Except AssertFault AssertReturn
  | .toBeDefined =>
      assertRes st.isNot st.throws
        (match st.received with | .undef => false | _ => true)
        "Expected value to be defined" "toBeDefined"
  | .toBeUndefined =>
      assertRes st.isNot st.throws
        (match st.received with | .undef => true | _ => false)
        "Expected value to be undefined" "toBeUndefined"
  | .toBeNull =>
      assertRes st.isNot st.throws
        (match st.received with | .null => true | _ => false)
        "Expected value to be null" "toBeNull"
  | .toBeTruthy =>
      assertRes st.isNot st.throws (truthy st.received)
        "Expected value to be truthy" "toBeTruthy"
  | .toBeFalsy =>
      assertRes st.isNot st.throws (!truthy st.received)
        "Expected value to be falsy" "toBeFalsy"
  | .toBeNaN =>
      assertRes st.isNot st.throws
        (match st.received with | .num .nan => true | _ => false)
        "Expected value to be NaN" "toBeNaN"
  | .toBeTracked =>
      assertRes st.isNot st.throws (isTrackedV st.received)
        "Expected function to be tracked" "toBeTracked"
  | .toBeGreaterThan e =>
      assertRes st.isNot st.throws (jsGt st.received e)
        "Expected value to be greater than the expected value" "toBeGreaterThan"
  | .toBeGreaterThanOrEqual e =>
      assertRes st.isNot st.throws (jsGe st.received e)
        "Expected value to be greater than or equal to the expected value"
        "toBeGreaterThanOrEqual"
  | .toBeLessThan e =>
      assertRes st.isNot st.throws (jsLt st.received e)
        "Expected value to be less than the expected value" "toBeLessThan"
  | .toBeLessThanOrEqual e =>
      assertRes st.isNot st.throws (jsLe st.received e)
        "Expected value to be less than or equal to the expected value"
        "toBeLessThanOrEqual"
  | .toBeInstanceOf className =>
      match constructorName st.received with
      | none =>
          .error (.typeError
            "Cannot read properties of null or undefined (reading constructor)")
      | some n =>
          assertRes st.isNot st.throws (n == className)
            "Expected value to be an instance of the expected class" "toBeInstanceOf"
  | .toBeBetween lo hi =>
      assertRes st.isNot st.throws (jsGt st.received lo && jsLt st.received hi)
        "Expected value to be between the given bounds exclusive" "toBeBetween"
  | .toBeBetweenOrEqual lo hi =>
      assertRes st.isNot st.throws (jsGe st.received lo && jsLe st.received hi)
        "Expected value to be between the given bounds inclusive" "toBeBetweenOrEqual"
  | .toBeAboveMin lo =>
      assertRes st.isNot st.throws (jsGe st.received lo)
        "Expected value to be greater than or equal to the minimum" "toBeAboveMin"
  | .toBeBelowMax hi =>
      assertRes st.isNot st.throws (jsLe st.received hi)
        "Expected value to be less than or equal to the maximum" "toBeBelowMax"
  | .toMatch expected =>
      (match st.received with
       | .str s =>
           assertRes st.isNot st.throws
             (match expected with
              | .str sub => strIncludes s sub
              | _ => false)
             "Expected value to match the expected pattern" "toMatch"
       | .arr l =>
           assertRes st.isNot st.throws (l.any (fun x => svzEq x expected))
             "Expected value to match the expected pattern" "toMatch"
       | _ => .error (.typeError "received.includes is not a function"))
  | .toBe expected =>
      assertRes st.isNot st.throws (sameValue st.received expected)
        (diff st.received expected).diffFormatted "toBe"
  | .toEqual expected =>
      assertRes st.isNot st.throws ((diff st.received expected).hasDiffs == false)
        (diff st.received expected).diffFormatted "toEqual"
  | .toContain expected =>
      (match st.received with
       | .str s =>
           assertRes st.isNot st.throws
             (match expected with
              | .str sub => strIncludes s sub
              | _ => false)
             "Expected value to contain the expected value" "toContain"
       | .arr l =>
           assertRes st.isNot st.throws (l.any (fun x => svzEq x expected))
             "Expected value to contain the expected value" "toContain"
       | _ =>
           assertRes st.isNot st.throws false
             "Expected value to be an array or string" "toContain")
  | .toBeCloseTo expected numDigits =>
      assertRes st.isNot st.throws
        (match roundMul (toNumberV st.received) numDigits with
         | some i => i == jsRound (expected * (10 : Rat) ^ numDigits)
         | none => false)
        "Expected value to be close to the expected number" "toBeCloseTo"
  | .toThrow expected =>
      (match st.received with
       | .fn _ callResult =>
           (match expected with
            | none =>
                assertRes st.isNot st.throws callResult.isSome
                  "Expected function to throw an error" "toThrow"
            | some e =>
                (match callResult with
                 | none =>
                     assertRes st.isNot st.throws false
                       "Expected function to throw the given value" "toThrow"
                 | some thrown =>
                     (match e with
                      | .errorV ex =>
                          assertRes st.isNot st.throws
                            (thrown.className == ex.className &&
                              thrown.message == ex.message)
                            "Expected thrown error to match the given error" "toThrow"
                      | .str s =>
                          assertRes st.isNot st.throws (thrown.message == s)
                            "Expected thrown error message to equal the given string"
                            "toThrow"
                      | _ =>
                          assertRes st.isNot st.throws false
                            "Invalid expected value type: must be Error, string, or RegExp"
                            "toThrow")))
       | _ =>
           assertRes st.isNot st.throws false
             "Expected received value to be a function" "toThrow")
  | .toHaveBeenCalled =>
      (match st.received with
       | .fn (some t) _ =>
           assertRes st.isNot st.throws (!t.1.isEmpty)
             "Expected function to have been called" "toHaveBeenCalled"
       | _ => .error (.usageError (usageMsg "toHaveBeenCalled")))
  | .toHaveBeenCalledTimes times =>
      (match st.received with
       | .fn (some t) _ =>
           assertRes st.isNot st.throws (t.1.length == times)
             "Expected function to have been called the expected number of times"
             "toHaveBeenCalledTimes"
       | _ => .error (.usageError (usageMsg "toHaveBeenCalledTimes")))
  | .toHaveBeenCalledWith args =>
      (match st.received with
       | .fn (some t) _ =>
           assertRes st.isNot st.throws
             (t.1.any (fun c => vequal (.arr c) (.arr args)))
             "Expected function to have been called with the given arguments"
             "toHaveBeenCalledWith"
       | _ => .error (.usageError (usageMsg "toHaveBeenCalledWith")))
  | .toHaveBeenLastCalledWith args =>
      (match st.received with
       | .fn (some t) _ =>
           (match t.1.getLast? with
            | none =>
                .error (.typeError "Cannot read properties of undefined (reading args)")
            | some c =>
                assertRes st.isNot st.throws
                  ((diff (.arr c) (.arr args)).hasDiffs == false)
                  "Function last call differences" "toHaveBeenLastCalledWith")
       | _ => .error (.usageError (usageMsg "toHaveBeenLastCalledWith")))
  | .toHaveBeenNthCalledWith n args =>
      (match st.received with
       | .fn (some t) _ =>
           (match (if n == 0 then none else t.1[n - 1]?) with
            | none =>
                .error (.typeError "Cannot read properties of undefined (reading args)")
            | some c =>
                assertRes st.isNot st.throws
                  ((diff (.arr c) (.arr args)).hasDiffs == false)
                  "Function nth call differences" "toHaveBeenNthCalledWith")
       | _ => .error (.usageError (usageMsg "toHaveBeenNthCalledWith")))
  | .toHaveReturned =>
      (match st.received with
       | .fn (some t) _ =>
           assertRes st.isNot st.throws (decide (0 < t.2.length))
             "Expected function to have returned" "toHaveReturned"
       | _ => .error (.usageError (usageMsg "toHaveReturned")))
  | .toHaveReturnedTimes times =>
      (match st.received with
       | .fn (some t) _ =>
           assertRes st.isNot st.throws (t.2.length == times)
             "Expected function to have returned the expected number of times"
             "toHaveReturnedTimes"
       | _ => .error (.usageError (usageMsg "toHaveReturnedTimes")))
  | .toHaveReturnedWith value =>
      (match st.received with
       | .fn (some t) _ =>
           assertRes st.isNot st.throws
             (t.2.any (fun rv => (diff rv value).hasDiffs))
             "Expected function to have returned with the given value"
             "toHaveReturnedWith"
       | _ => .error (.usageError (usageMsg "toHaveReturnedWith")))
  | .toHaveLastReturnedWith value =>
      (match st.received with
       | .fn (some t) _ =>
           assertRes st.isNot st.throws
             (decide (0 < t.2.length) &&
               (diff (t.2.getLast?.getD .undef) value).hasDiffs == false)
             "Function last return differences" "toHaveLastReturnedWith"
       | _ => .error (.usageError (usageMsg "toHaveLastReturnedWith")))
  | .toHaveNthReturnedWith n value =>
      (match st.received with
       | .fn (some t) _ =>
           assertRes st.isNot st.throws
             (decide (n ≤ t.2.length) &&
               (diff (if n == 0 then .undef else (t.2[n - 1]?).getD .undef)
                   value).hasDiffs == false)
             "Function nth return differences" "toHaveNthReturnedWith"
       | _ => .error (.usageError (usageMsg "toHaveNthReturnedWith")))
  | .toHaveLength len =>
      (match jsLength st.received with
       | .error _ =>
           .error (.typeError "Cannot read properties of null or undefined (reading length)")
       | .ok o =>
           assertRes st.isNot st.throws (o == some len)
             "Expected value to have the expected length" "toHaveLength")
  | .toHaveProperty keyPath value =>
      (match walkPath st.received (keyPath.splitOn ".") with
       | none =>
           assertRes st.isNot st.throws false "Property not found" "toHaveProperty"
       | some v2 =>
           (match value with
            | some v =>
                assertRes st.isNot st.throws ((diff v2 v).hasDiffs == false)
                  "Property does not have expected value" "toHaveProperty"
            | none => assertRes st.isNot st.throws true "" "toHaveProperty"))

/-- The value the skip-gate condition yields once settled: the literal
condition for plain values (`none` for undefined/null), the settled value
of a callable condition. -/
def condYields : CondValue → Option Bool
  | .undef => none
  | .null => none
  | .boolean b => some b
  | .callable r => r

theorem executeLoop_calls_le (d : String) (tm retry : Nat) (sf : Bool)
    (env : Nat → FnBehavior) :
    ∀ (fuel retries : Nat) (r : ExecResult) (c : Nat),
      executeLoop d tm retry sf env retries fuel = some (r, c) → c ≤ fuel := by
  intro fuel
  induction fuel with
  | zero =>
      intro retries r c h
      simp only [executeLoop, Option.some.injEq, Prod.mk.injEq] at h
      omega
  | succ m ih =>
      intro retries r c h
      simp only [executeLoop] at h
      cases hA : runAttempt d tm (env retries) with
      | none => rw [hA] at h; simp at h
      | some o =>
          rw [hA] at h
          cases o with
          | none =>
              simp only [Option.some.injEq, Prod.mk.injEq] at h
              omega
          | some e =>
              by_cases hb : retries + 1 > retry
              · simp only [hb, if_pos, Option.some.injEq, Prod.mk.injEq] at h
                omega
              · simp only [hb, if_neg, not_false_iff, Option.map_eq_some'] at h
                obtain ⟨⟨r2, c2⟩, h2, h3⟩ := h
                have := ih (retries + 1) r2 c2 h2
                simp only [Prod.mk.injEq] at h3
                omega

theorem executeLoop_first_success (d : String) (tm retry : Nat) (sf : Bool)
    (env : Nat → FnBehavior) :
    ∀ (j s : Nat),
      (∀ i, i < j → ∃ e, runAttempt d tm (env (s + i)) = some (some e)) →
      runAttempt d tm (env (s + j)) = some none →
      s + j ≤ retry →
      executeLoop d tm retry sf env s (retry + 1 - s) =
        some ({ description := d, retries := s + j, status := .passed,
                error := none }, j + 1) := by
  intro j
  induction j with
  | zero =>
      intro s _ hsucc hbound
      have hf : retry + 1 - s = (retry - s) + 1 := by omega
      rw [hf]
      simp only [Nat.add_zero] at hsucc
      simp [executeLoop, hsucc]
  | succ m ih =>
      intro s hfail hsucc hbound
      obtain ⟨e, he⟩ := hfail 0 (Nat.succ_pos m)
      simp only [Nat.add_zero] at he
      have hf : retry + 1 - s = (retry - s) + 1 := by omega
      rw [hf]
      simp only [executeLoop, he]
      have hb : ¬ (s + 1 > retry) := by omega
      rw [if_neg hb]
      have hrec := ih (s + 1)
        (fun i hi => by
          have := hfail (i + 1) (by omega)
          simpa [Nat.add_assoc, Nat.add_comm 1 i] using this)
        (by
          have : s + 1 + m = s + (m + 1) := by omega
          rw [this]; exact hsucc)
        (by omega)
      have hf2 : retry + 1 - (s + 1) = retry - s := by omega
      rw [hf2] at hrec
      rw [hrec]
      have : s + 1 + m = s + (m + 1) := by omega
      simp [this]

theorem executeLoop_all_fail (d : String) (tm retry : Nat) (sf : Bool)
    (env : Nat → FnBehavior) (f : Nat → JSErr) :
    ∀ (fuel s : Nat),
      0 < fuel →
      (∀ i, s ≤ i → i ≤ retry → runAttempt d tm (env i) = some (some (f i))) →
      s + fuel = retry + 1 →
      executeLoop d tm retry sf env s fuel =
        some (finalFailure d retry sf (f retry), fuel) := by
  intro fuel
  induction fuel with
  | zero => intro s h; omega
  | succ m ih =>
      intro s _ hfail hinv
      have hs : s ≤ retry := by omega
      have he := hfail s le_rfl hs
      simp only [executeLoop, he]
      by_cases hb : s + 1 > retry
      · have hsr : s = retry := by omega
        have hm : m = 0 := by omega
        rw [if_pos hb]
        subst hsr hm
        rfl
      · rw [if_neg hb]
        have hm : 0 < m := by omega
        have hrec := ih (s + 1) hm
          (fun i hi1 hi2 => hfail i (by omega) hi2) (by omega)
        rw [hrec]
        rfl

theorem executeLoop_congr (d : String) (tm retry : Nat) (sf : Bool)
    (env env2 : Nat → FnBehavior)
    (henv : ∀ n, runAttempt d tm (env n) = runAttempt d tm (env2 n)) :
    ∀ (fuel s : Nat),
      executeLoop d tm retry sf env s fuel =
        executeLoop d tm retry sf env2 s fuel := by
  intro fuel
  induction fuel with
  | zero => intro s; rfl
  | succ m ih =>
      intro s
      simp only [executeLoop, henv s]
      cases runAttempt d tm (env2 s) with
      | none => rfl
      | some o =>
          cases o with
          | none => rfl
          | some e =>
              dsimp only
              by_cases hb : s + 1 > retry
              · rw [if_pos hb, if_pos hb]
              · rw [if_neg hb, if_neg hb, ih (s + 1)]

theorem execute_calls_le (ex : Executable) (env : Nat → FnBehavior)
    (r : ExecResult) (c : Nat) (h : execute ex env = some (r, c)) :
    c ≤ ex.options.retry + 1 := by
  unfold execute at h
  by_cases hg : gateSkips ex.options.skip ex.options.condIf = true
  · rw [if_pos hg] at h
    simp only [Option.some.injEq, Prod.mk.injEq] at h
    omega
  · rw [if_neg hg] at h
    exact executeLoop_calls_le _ _ _ _ _ _ _ _ _ h

/-- C1: for a test or hook with `retry = N` whose gate does not skip it,
`execute` invokes the body at most `N + 1` times; if the first successful
invocation is attempt `k` (`1 ≤ k ≤ N + 1`, every earlier attempt having
settled with a failure), the result has status passed and `retries = k - 1`,
and exactly `k` invocations were made (none after the success). -/
theorem c1_retry_first_success (ex : Executable) (env : Nat → FnBehavior) (k : Nat)
    (hgate : gateSkips ex.options.skip ex.options.condIf = false)
    (hk1 : 1 ≤ k) (hk2 : k ≤ ex.options.retry + 1)
    (hfail : ∀ i, i < k - 1 →
      ∃ e, runAttempt ex.description ex.options.timeout (env i) = some (some e))
    (hsucc : runAttempt ex.description ex.options.timeout (env (k - 1)) = some none) :
    execute ex env =
      some ({ description := ex.description, retries := k - 1, status := .passed,
              error := none }, k)
    ∧ ∀ (env2 : Nat → FnBehavior) (r : ExecResult) (c : Nat),
        execute ex env2 = some (r, c) → c ≤ ex.options.retry + 1 := by
  constructor
  · unfold execute
    rw [if_neg (by simp [hgate])]
    have h := executeLoop_first_success ex.description ex.options.timeout
      ex.options.retry ex.options.softFail env (k - 1) 0
      (fun i hi => by simpa using hfail i hi)
      (by simpa using hsucc)
      (by omega)
    simp only [Nat.zero_add, Nat.add_zero, Nat.sub_zero] at h
    rw [h]
    have : k - 1 + 1 = k := by omega
    rw [this]
  · intro env2 r c h
    exact execute_calls_le ex env2 r c h

def exW1 : Executable :=
  { description := "t"
    options := { timeout := 0, skip := false, condIf := .boolean true,
                 softFail := false, retry := 2 } }

def envW1 : Nat → FnBehavior :=
  fun n => if n == 2 then .fulfills 0 else .rejects ⟨"boom", "st"⟩ 0

theorem c1_retry_first_success_witness :
    execute exW1 envW1 =
      some ({ description := "t", retries := 2, status := .passed,
              error := none }, 3) :=
  (c1_retry_first_success exW1 envW1 3 rfl (by decide) (by decide)
    (fun i hi => ⟨⟨"boom", "st"⟩, by
      match i, hi with
      | 0, _ => rfl
      | 1, _ => rfl⟩)
    rfl).1

/-- C6: if `skip` is true, or the `if` condition (its settled value when
callable) yields false, null or undefined, then `execute` returns a
skipped result with `retries = 0` and no error field, and never invokes
the body (invocation count 0). -/
theorem c6_skip_gate (ex : Executable) (env : Nat → FnBehavior)
    (h : ex.options.skip = true ∨ condYields ex.options.condIf = none ∨
      condYields ex.options.condIf = some false) :
    execute ex env =
      some ({ description := ex.description, retries := 0, status := .skipped,
              error := none }, 0) := by
  have hg : gateSkips ex.options.skip ex.options.condIf = true := by
    rcases h with h | h | h
    · simp [gateSkips, h]
    · cases hc : ex.options.condIf <;>
        simp_all [condYields, gateSkips, isUndefC, isNullC, evaluateCondition]
    · cases hc : ex.options.condIf <;>
        simp_all [condYields, gateSkips, isUndefC, isNullC, evaluateCondition]
  unfold execute
  rw [if_pos hg]

def exW2 : Executable :=
  { description := "s"
    options := { timeout := 0, skip := true, condIf := .boolean true,
                 softFail := false, retry := 0 } }

theorem c6_skip_gate_witness :
    execute exW2 (fun _ => .fulfills 0) =
      some ({ description := "s", retries := 0, status := .skipped,
              error := none }, 0) :=
  c6_skip_gate exW2 (fun _ => .fulfills 0) (Or.inl rfl)

def exW3 : Executable :=
  { description := "t"
    options := { timeout := 0, skip := false, condIf := .boolean true,
                 softFail := true, retry := 0 } }

def envW3 : Nat → FnBehavior := fun _ => .rejects ⟨"boom", "st"⟩ 0

/-- C5 counterexample: a soft-failing test whose single attempt throws an
error with message `"boom"` ends with error message
`"Soft failure: boom"`, not the thrown message itself as the claim
states. -/
theorem c5_counterexample :
    execute exW3 envW3 =
      some ({ description := "t", retries := 1, status := .softFail,
              error := some { message := "Soft failure: boom", stack := "st" } }, 1)
    ∧ "Soft failure: boom" ≠ "boom" :=
  ⟨rfl, by decide⟩

/-- C5 (amended): with `softFail = true`, a gate that does not skip, and
every one of the `retry + 1` attempts settling with a failure, the final
status is soft-fail (never failed), the stack comes from the last failure,
and the message is the last thrown message prefixed with
`"Soft failure: "`. -/
theorem c5_soft_fail_amended (ex : Executable) (env : Nat → FnBehavior)
    (f : Nat → JSErr)
    (hgate : gateSkips ex.options.skip ex.options.condIf = false)
    (hsf : ex.options.softFail = true)
    (hfail : ∀ i, i ≤ ex.options.retry →
      runAttempt ex.description ex.options.timeout (env i) = some (some (f i))) :
    execute ex env =
      some ({ description := ex.description, retries := ex.options.retry + 1,
              status := .softFail,
              error := some { message := "Soft failure: " ++ (f ex.options.retry).message,
                              stack := (f ex.options.retry).stack } },
            ex.options.retry + 1) := by
  unfold execute
  rw [if_neg (by simp [hgate])]
  have h := executeLoop_all_fail ex.description ex.options.timeout
    ex.options.retry ex.options.softFail env f (ex.options.retry + 1) 0
    (by omega) (fun i _ hi2 => hfail i hi2) (by omega)
  rw [h, hsf]
  rfl

theorem c5_soft_fail_amended_witness :
    execute exW3 envW3 =
      some ({ description := "t", retries := 1, status := .softFail,
              error := some { message := "Soft failure: boom", stack := "st" } }, 1) :=
  c5_soft_fail_amended exW3 envW3 (fun _ => ⟨"boom", "st"⟩) rfl rfl
    (fun i hi => by
      have : i = 0 := Nat.le_zero.mp hi
      subst this
      rfl)

/-- C7: a timed attempt that does not settle before a positive timer fails
with exactly the message `"<description> exceeded <T> ms."`; replacing a
never-settling attempt by one that immediately throws that synthetic error
leaves `execute` unchanged (the timeout is consumed exactly like a thrown
error, not as a distinct terminal status); and with `timeout = 0` no timer
is raced: the attempt outcome is the settled outcome of the invocation itself. -/
theorem c7_timeout_race (ex : Executable) (env : Nat → FnBehavior) (i : Nat)
    (hT : 0 < ex.options.timeout) (hi : env i = .neverSettles) :
    (∀ (d : String) (T : Nat) (b : FnBehavior), 0 < T → settlesWithin b T = false →
      runAttempt d T b = some (some (timeoutErr d T))
      ∧ (timeoutErr d T).message = d ++ " exceeded " ++ toString T ++ " ms.")
    ∧ execute ex env =
        execute ex (fun n => if n = i then
          .rejects (timeoutErr ex.description ex.options.timeout) 0 else env n)
    ∧ (∀ (d : String) (b : FnBehavior), runAttempt d 0 b = settledOutcome b) := by
  refine ⟨?_, ?_, ?_⟩
  · intro d T b hT2 hb
    constructor
    · simp [runAttempt, hT2, hb]
    · rfl
  · unfold execute
    have henv : ∀ n, runAttempt ex.description ex.options.timeout (env n) =
        runAttempt ex.description ex.options.timeout
          (if n = i then .rejects (timeoutErr ex.description ex.options.timeout) 0
           else env n) := by
      intro n
      by_cases hn : n = i
      · subst hn
        rw [hi, if_pos rfl]
        simp [runAttempt, hT, settlesWithin, settledOutcome]
      · rw [if_neg hn]
    cases gateSkips ex.options.skip ex.options.condIf
    · simp only [Bool.false_eq_true, if_neg]
      exact executeLoop_congr _ _ _ _ _ _ henv _ _
    · rfl
  · intro d b
    simp [runAttempt]

def exW4 : Executable :=
  { description := "t"
    options := { timeout := 5, skip := false, condIf := .boolean true,
                 softFail := false, retry := 0 } }

def envW4 : Nat → FnBehavior := fun _ => .neverSettles

theorem c7_timeout_race_witness :
    (runAttempt "t" 5 .neverSettles = some (some (timeoutErr "t" 5))
      ∧ (timeoutErr "t" 5).message = "t" ++ " exceeded " ++ toString 5 ++ " ms.")
    ∧ execute exW4 envW4 =
        execute exW4 (fun n => if n = 0 then .rejects (timeoutErr "t" 5) 0
          else envW4 n) := by
  have h := c7_timeout_race exW4 envW4 0 (by decide) rfl
  exact ⟨h.1 "t" 5 .neverSettles (by decide) rfl, h.2.1⟩

/-- The counter of `stats` that a terminal status is tallied into. -/
def counterOf : ExecStatus → Stats → Nat
  | .passed, s => s.passed
  | .failed, s => s.failed
  | .skipped, s => s.skipped
  | .softFail, s => s.softFailed

/-- Sum of the four outcome counters of `stats`. -/
def sumCounters (s : Stats) : Nat :=
  s.passed + s.failed + s.skipped + s.softFailed

theorem tallyReport_tests (rep : TestReport) (r : ExecResult) :
    (tallyReport rep r).tests = rep.tests := by
  cases h : r.status <;> simp [tallyReport, h]

theorem tallyReport_stats (rep : TestReport) (r : ExecResult) :
    (tallyReport rep r).stats = tallyStats r rep.stats := by
  cases h : r.status <;> simp [tallyReport, tallyStats, h]

theorem tallyReport_status (rep : TestReport) (r : ExecResult) :
    (tallyReport rep r).status = .failed ↔
      rep.status = .failed ∨ r.status = .failed := by
  cases h : r.status <;> simp [tallyReport, h]

theorem foldl_tallyReport_tests (l : List ExecResult) :
    ∀ rep : TestReport, (l.foldl tallyReport rep).tests = rep.tests := by
  induction l with
  | nil => intro rep; rfl
  | cons x xs ih =>
      intro rep
      simp only [List.foldl_cons, ih, tallyReport_tests]

theorem foldl_tallyReport_stats (l : List ExecResult) :
    ∀ rep : TestReport,
      (l.foldl tallyReport rep).stats =
        l.foldl (fun s r => tallyStats r s) rep.stats := by
  induction l with
  | nil => intro rep; rfl
  | cons x xs ih =>
      intro rep
      simp only [List.foldl_cons, ih, tallyReport_stats]

theorem foldl_tallyReport_status (l : List ExecResult) :
    ∀ rep : TestReport,
      ((l.foldl tallyReport rep).status = .failed ↔
        rep.status = .failed ∨ ∃ r ∈ l, r.status = .failed) := by
  induction l with
  | nil => intro rep; simp
  | cons x xs ih =>
      intro rep
      rw [List.foldl_cons, ih, tallyReport_status]
      constructor
      · rintro (⟨h | h⟩ | ⟨r, hr, h⟩)
        · exact Or.inl h
        · exact Or.inr ⟨x, List.mem_cons_self x xs, h⟩
        · exact Or.inr ⟨r, List.mem_cons_of_mem x hr, h⟩
      · rintro (h | ⟨r, hr, h⟩)
        · exact Or.inl (Or.inl h)
        · rcases List.mem_cons.mp hr with heq | hmem
          · exact Or.inl (Or.inr (heq ▸ h))
          · exact Or.inr ⟨r, hmem, h⟩

theorem tallyStats_total (r : ExecResult) (s : Stats) :
    (tallyStats r s).total = s.total := by
  cases h : r.status <;> simp [tallyStats, h]

theorem tallyStats_sum (r : ExecResult) (s : Stats) :
    sumCounters (tallyStats r s) = sumCounters s + 1 := by
  cases h : r.status <;> simp [tallyStats, sumCounters, h] <;> omega

theorem counterOf_tallyStats_self (r : ExecResult) (s : Stats) :
    counterOf r.status (tallyStats r s) = counterOf r.status s + 1 := by
  cases h : r.status <;> simp [tallyStats, counterOf, h]

theorem counterOf_tallyStats_other (r : ExecResult) (s : Stats) (st : ExecStatus)
    (hne : st ≠ r.status) :
    counterOf st (tallyStats r s) = counterOf st s := by
  cases h : r.status <;> cases st <;> simp_all [tallyStats, counterOf]

theorem foldl_tallyStats_total (l : List ExecResult) :
    ∀ s : Stats, (l.foldl (fun s r => tallyStats r s) s).total = s.total := by
  induction l with
  | nil => intro s; rfl
  | cons x xs ih =>
      intro s
      rw [List.foldl_cons, ih, tallyStats_total]

theorem foldl_tallyStats_sum (l : List ExecResult) :
    ∀ s : Stats,
      sumCounters (l.foldl (fun s r => tallyStats r s) s) =
        sumCounters s + l.length := by
  induction l with
  | nil => intro s; simp
  | cons x xs ih =>
      intro s
      rw [List.foldl_cons, ih, tallyStats_sum]
      simp [Nat.add_comm, Nat.add_assoc, Nat.add_left_comm]

theorem mapOption_forall2 (f : α → Option β) :
    ∀ (l : List α) (ys : List β), mapOption f l = some ys →
      List.Forall₂ (fun a b => f a = some b) l ys := by
  intro l
  induction l with
  | nil =>
      intro ys h
      simp only [mapOption, Option.some.injEq] at h
      subst h
      exact List.Forall₂.nil
  | cons x xs ih =>
      intro ys h
      simp only [mapOption, Option.bind_eq_bind, Option.bind_eq_some,
        Option.pure_def, Option.some.injEq] at h
      obtain ⟨y, hy, ys2, hys2, heq⟩ := h
      subst heq
      exact List.Forall₂.cons hy (ih ys2 hys2)

theorem mapOption_length (f : α → Option β) (l : List α) (ys : List β)
    (h : mapOption f l = some ys) : ys.length = l.length :=
  (mapOption_forall2 f l ys h).length_eq.symm

theorem runBatches_spec (tc : TestCase) (env : RunEnv) :
    ∀ (bs : List (List (Nat × Executable))) (rep rep2 : TestReport),
      runBatches tc env bs rep = some rep2 →
      ∃ newResults : List ExecResult,
        rep2.tests = rep.tests ++ newResults
        ∧ rep2.stats = newResults.foldl (fun s r => tallyStats r s) rep.stats
        ∧ (rep2.status = .failed ↔
            rep.status = .failed ∨ ∃ r ∈ newResults, r.status = .failed)
        ∧ newResults.length = bs.flatten.length := by
  intro bs
  induction bs with
  | nil =>
      intro rep rep2 h
      simp only [runBatches, Option.some.injEq] at h
      subst h
      exact ⟨[], by simp⟩
  | cons b rest ih =>
      intro rep rep2 h
      simp only [runBatches, Option.bind_eq_bind, Option.bind_eq_some] at h
      obtain ⟨prs, hprs, h⟩ := h
      obtain ⟨newRest, h1, h2, h3, h4⟩ := ih _ _ h
      refine ⟨prs.map Prod.snd ++ newRest, ?_, ?_, ?_, ?_⟩
      · rw [h1, foldl_tallyReport_tests]
        simp [List.append_assoc]
      · rw [h2, foldl_tallyReport_stats]
        simp [List.foldl_append]
      · rw [h3, foldl_tallyReport_status]
        simp only [List.mem_append]
        constructor
        · rintro ((h | h) | ⟨r, hr, hf⟩)
          · exact Or.inl h
          · obtain ⟨r, hr, hf⟩ := h
            exact Or.inr ⟨r, Or.inl hr, hf⟩
          · exact Or.inr ⟨r, Or.inr hr, hf⟩
        · rintro (h | ⟨r, hr | hr, hf⟩)
          · exact Or.inl (Or.inl h)
          · exact Or.inl (Or.inr ⟨r, hr, hf⟩)
          · exact Or.inr ⟨r, hr, hf⟩
      · have hlen : prs.length = b.length := mapOption_length _ _ _ hprs
        simp [h4, hlen]

theorem runModel_destruct (tc : TestCase) (width : Nat) (env : RunEnv)
    (rep : TestReport) (h : runModel tc width env = some rep) :
    ∃ rep1 rep2 : TestReport,
      rep1.tests = []
      ∧ rep1.stats = ⟨(selectedTests tc).length, 0, 0, 0, 0⟩
      ∧ rep1.status = .passed
      ∧ runBatches tc env (batches width (selectedTests tc).enum) rep1 = some rep2
      ∧ rep.tests = rep2.tests ∧ rep.stats = rep2.stats ∧ rep.status = rep2.status := by
  unfold runModel at h
  simp only [Option.bind_eq_bind, Option.bind_eq_some] at h
  obtain ⟨rep1, hrep1, h⟩ := h
  obtain ⟨rep2, hrep2, h⟩ := h
  refine ⟨rep1, rep2, ?_, ?_, ?_, hrep2, ?_⟩
  · cases hb : tc.hooks.beforeAll with
    | none => rw [hb] at hrep1; simp only [Option.some.injEq] at hrep1; rw [← hrep1]
    | some hk =>
        rw [hb] at hrep1
        dsimp only at hrep1
        cases hx : execute hk env.beforeAllEnv with
        | none => rw [hx] at hrep1; simp at hrep1
        | some pr =>
            rw [hx] at hrep1
            simp only [Option.map_some', Option.some.injEq] at hrep1
            rw [← hrep1]
  · cases hb : tc.hooks.beforeAll with
    | none => rw [hb] at hrep1; simp only [Option.some.injEq] at hrep1; rw [← hrep1]
    | some hk =>
        rw [hb] at hrep1
        dsimp only at hrep1
        cases hx : execute hk env.beforeAllEnv with
        | none => rw [hx] at hrep1; simp at hrep1
        | some pr =>
            rw [hx] at hrep1
            simp only [Option.map_some', Option.some.injEq] at hrep1
            rw [← hrep1]
  · cases hb : tc.hooks.beforeAll with
    | none => rw [hb] at hrep1; simp only [Option.some.injEq] at hrep1; rw [← hrep1]
    | some hk =>
        rw [hb] at hrep1
        dsimp only at hrep1
        cases hx : execute hk env.beforeAllEnv with
        | none => rw [hx] at hrep1; simp at hrep1
        | some pr =>
            rw [hx] at hrep1
            simp only [Option.map_some', Option.some.injEq] at hrep1
            rw [← hrep1]
  · cases ha : tc.hooks.afterAll with
    | none =>
        rw [ha] at h
        simp only [Option.some.injEq] at h
        rw [← h]
        exact ⟨rfl, rfl, rfl⟩
    | some hk =>
        rw [ha] at h
        dsimp only at h
        cases hx : execute hk env.afterAllEnv with
        | none => rw [hx] at h; simp at h
        | some pr =>
            rw [hx] at h
            simp only [Option.map_some', Option.some.injEq] at h
            rw [← h]
            exact ⟨rfl, rfl, rfl⟩

/-- C2: after `run()` completes, `report.status` is failed iff some test
result in `report.tests` has status failed - soft-fail and skipped test
results, and hook results (which are never tallied), cannot flip it. -/
theorem c2_report_status (tc : TestCase) (width : Nat) (env : RunEnv)
    (rep : TestReport) (h : runModel tc width env = some rep) :
    rep.status = .failed ↔ ∃ r ∈ rep.tests, r.status = .failed := by
  obtain ⟨rep1, rep2, ht1, _, hs1, hrb, ht, _, hst⟩ := runModel_destruct tc width env rep h
  obtain ⟨newResults, h1, _, h3, _⟩ := runBatches_spec tc env _ rep1 rep2 hrb
  rw [hst, h3, hs1, ht, h1, ht1]
  simp

def tcW1 : TestCase :=
  { description := "suite"
    tests := [{ description := "good",
                options := { timeout := 0, skip := false, condIf := .boolean true,
                             softFail := false, retry := 0 } },
              { description := "bad",
                options := { timeout := 0, skip := false, condIf := .boolean true,
                             softFail := false, retry := 0 } }]
    onlyTests := []
    hooks := { beforeAll := none, beforeEach := none,
               afterEach := none, afterAll := none } }

def envW5 : RunEnv :=
  { beforeAllEnv := fun _ => .fulfills 0
    beforeEachEnv := fun _ _ => .fulfills 0
    testEnv := fun i _ => if i == 1 then .rejects ⟨"boom", "st"⟩ 0 else .fulfills 0
    afterEachEnv := fun _ _ => .fulfills 0
    afterAllEnv := fun _ => .fulfills 0 }

def repW1 : TestReport :=
  { stats := { total := 2, passed := 1, failed := 1, skipped := 0, softFailed := 0 }
    status := .failed
    description := "suite"
    tests := [{ description := "good", retries := 0, status := .passed, error := none },
              { description := "bad", retries := 1, status := .failed,
                error := some { message := "boom", stack := "st" } }]
    hooks := [] }

theorem c2_report_status_witness :
    runModel tcW1 4 envW5 = some repW1
    ∧ (repW1.status = .failed ↔ ∃ r ∈ repW1.tests, r.status = .failed) :=
  ⟨rfl, c2_report_status tcW1 4 envW5 repW1 rfl⟩

theorem batchesAux_flatten (width : Nat) (hw : 0 < width) :
    ∀ (fuel : Nat) (l : List α), l.length ≤ fuel →
      (batchesAux width fuel l).flatten = l := by
  intro fuel
  induction fuel with
  | zero =>
      intro l hl
      have : l = [] := List.length_eq_zero.mp (Nat.le_zero.mp hl)
      subst this
      rfl
  | succ m ih =>
      intro l hl
      cases l with
      | nil => rfl
      | cons x xs =>
          simp only [batchesAux, List.flatten_cons]
          rw [ih ((x :: xs).drop width) (by rw [List.length_drop]; omega)]
          exact List.take_append_drop width (x :: xs)

theorem batches_flatten (width : Nat) (hw : 0 < width) (l : List α) :
    (batches width l).flatten = l :=
  batchesAux_flatten width hw l.length l le_rfl

theorem batchesAux_mem (width : Nat) (hw : 0 < width) :
    ∀ (fuel : Nat) (l : List α) (b : List α), b ∈ batchesAux width fuel l →
      b ≠ [] ∧ b.length ≤ width := by
  intro fuel
  induction fuel with
  | zero => intro l b h; simp [batchesAux] at h
  | succ m ih =>
      intro l b h
      cases l with
      | nil => simp [batchesAux] at h
      | cons x xs =>
          simp only [batchesAux, List.mem_cons] at h
          rcases h with h | h
          · subst h
            constructor
            · simp [List.take_eq_nil_iff]
              omega
            · simp [List.length_take]
          · exact ih _ _ h

/-- C4 counterexample: with 2 available execution units the batch width is
`cpus().length = 2`, not `max 2 4 = 4`: a run of six tests is processed in
three batches of two, so the first batch runs 2 tests concurrently where
the claim predicts `min (max 2 4) 6 = 4`. -/
theorem c4_counterexample :
    (batches (maxParallelTests 2) [1, 2, 3, 4, 5, 6]).map List.length = [2, 2, 2]
    ∧ maxParallelTests 2 ≠ max 2 4
    ∧ min (max 2 4) 6 = 4 :=
  ⟨rfl, by decide, by decide⟩

theorem batchesAux_getElem (width : Nat) (hw : 0 < width) :
    ∀ (fuel : Nat) (l : List α) (i : Nat), l.length ≤ fuel →
      (batchesAux width fuel l)[i]? =
        if i * width < l.length then some ((l.drop (i * width)).take width)
        else none := by
  intro fuel
  induction fuel with
  | zero =>
      intro l i hl
      have : l = [] := List.length_eq_zero.mp (Nat.le_zero.mp hl)
      subst this
      simp [batchesAux]
  | succ m ih =>
      intro l i hl
      cases l with
      | nil => simp [batchesAux]
      | cons x xs =>
          cases i with
          | zero =>
              simp only [batchesAux, List.getElem?_cons_zero, Nat.zero_mul,
                List.drop_zero]
              rw [if_pos (by simp)]
          | succ j =>
              simp only [batchesAux, List.getElem?_cons_succ]
              rw [ih ((x :: xs).drop width) j (by rw [List.length_drop]; omega)]
              rw [List.length_drop, List.drop_drop]
              have hmul : width + j * width = (j + 1) * width := by ring
              rw [hmul]
              generalize (x :: xs).length = L
              have hmul2 : (j + 1) * width = j * width + width := by ring
              by_cases hlt : (j + 1) * width < L
              · rw [if_pos (by omega), if_pos hlt]
              · rw [if_neg (by omega), if_neg hlt]

theorem batches_getElem (width : Nat) (hw : 0 < width) (l : List α) (i : Nat) :
    (batches width l)[i]? =
      if i * width < l.length then some ((l.drop (i * width)).take width)
      else none :=
  batchesAux_getElem width hw l.length l i le_rfl

/-- C4 (amended): the batch width is the number of available execution
units when that count is nonzero, with 4 used only as a fallback for a
zero (unavailable) count; the width is always at least 1 but need not be
at least 4.  The batches partition the selected tests greedily in order:
the i-th batch exists iff `i * width` tests have not exhausted the list,
it is exactly the next `width`-sized slice, and it therefore holds
`min width (remaining tests)` tests; so every batch is nonempty with at
most `width` tests, and the first batch is the first
`min width (number of tests)` tests. -/
theorem c4_width_amended (c : Nat) (l : List α) :
    0 < maxParallelTests c
    ∧ (c ≠ 0 → maxParallelTests c = c)
    ∧ maxParallelTests 0 = 4
    ∧ (batches (maxParallelTests c) l).flatten = l
    ∧ (∀ i : Nat, (batches (maxParallelTests c) l)[i]? =
        if i * maxParallelTests c < l.length then
          some ((l.drop (i * maxParallelTests c)).take (maxParallelTests c))
        else none)
    ∧ (∀ (i : Nat) (b : List α), (batches (maxParallelTests c) l)[i]? = some b →
        b.length = min (maxParallelTests c) (l.length - i * maxParallelTests c)
        ∧ b ≠ [] ∧ b.length ≤ maxParallelTests c)
    ∧ (l ≠ [] → (batches (maxParallelTests c) l).head? =
        some (l.take (maxParallelTests c))) := by
  have hw : 0 < maxParallelTests c := by
    unfold maxParallelTests
    cases c <;> simp
  refine ⟨hw, ?_, rfl, batches_flatten _ hw l, ?_, ?_, ?_⟩
  · intro hc
    unfold maxParallelTests
    simp [hc]
  · intro i
    exact batches_getElem _ hw l i
  · intro i b hb
    have h := batches_getElem (maxParallelTests c) hw l i
    rw [hb] at h
    by_cases hlt : i * maxParallelTests c < l.length
    · rw [if_pos hlt] at h
      have hb2 : b = (l.drop (i * maxParallelTests c)).take (maxParallelTests c) := by
        injection h
      subst hb2
      refine ⟨by simp [List.length_take, List.length_drop], ?_, ?_⟩
      · simp only [ne_eq, List.take_eq_nil_iff, not_or]
        constructor
        · omega
        · simp only [List.drop_eq_nil_iff, not_le]
          omega
      · simp [List.length_take]
    · rw [if_neg hlt] at h
      simp at h
  · intro hl
    cases l with
    | nil => exact absurd rfl hl
    | cons x xs => rfl

theorem c4_width_amended_witness :
    maxParallelTests 2 = 2
    ∧ (batches (maxParallelTests 2) [1, 2, 3, 4, 5]).flatten = [1, 2, 3, 4, 5]
    ∧ (batches (maxParallelTests 2) [1, 2, 3, 4, 5])[2]? =
        some (([1, 2, 3, 4, 5].drop (2 * maxParallelTests 2)).take (maxParallelTests 2))
    ∧ (∃ b : List Nat, (batches (maxParallelTests 2) [1, 2, 3, 4, 5])[2]? = some b
        ∧ b.length =
            min (maxParallelTests 2) ([1, 2, 3, 4, 5].length - 2 * maxParallelTests 2)) := by
  have h := c4_width_amended 2 [1, 2, 3, 4, 5]
  have h5 := h.2.2.2.2.1 2
  rw [if_pos (by decide)] at h5
  refine ⟨h.2.1 (by decide), h.2.2.2.1, h5, ?_⟩
  exact ⟨_, h5, (h.2.2.2.2.2.1 2 _ h5).1⟩

/-- C8: after `run()` completes, `stats.total` is the number of selected
tests (the only-marked subset when non-empty, else all registered tests);
the four outcome counters sum to `stats.total`; the stats are the tally of
the test results alone (hook results are never counted); and each tally
step increments exactly the one counter matching the terminal status of
the result. -/
theorem c8_stats (tc : TestCase) (c : Nat) (env : RunEnv) (rep : TestReport)
    (h : runModel tc (maxParallelTests c) env = some rep) :
    rep.stats.total = (selectedTests tc).length
    ∧ rep.stats.passed + rep.stats.failed + rep.stats.skipped + rep.stats.softFailed
        = rep.stats.total
    ∧ rep.stats = statsFrom (selectedTests tc).length rep.tests
    ∧ (∀ (r : ExecResult) (s : Stats),
        counterOf r.status (tallyStats r s) = counterOf r.status s + 1
        ∧ ∀ st : ExecStatus, st ≠ r.status →
            counterOf st (tallyStats r s) = counterOf st s) := by
  have hw : 0 < maxParallelTests c := by
    unfold maxParallelTests
    cases c <;> simp
  obtain ⟨rep1, rep2, ht1, hs1, _, hrb, ht, hs, _⟩ :=
    runModel_destruct tc (maxParallelTests c) env rep h
  obtain ⟨newResults, h1, h2, _, h4⟩ := runBatches_spec tc env _ rep1 rep2 hrb
  have htests : rep.tests = newResults := by
    rw [ht, h1, ht1, List.nil_append]
  have hstats : rep.stats =
      newResults.foldl (fun s r => tallyStats r s) ⟨(selectedTests tc).length, 0, 0, 0, 0⟩ := by
    rw [hs, h2, hs1]
  have hlen : newResults.length = (selectedTests tc).length := by
    rw [h4, batches_flatten _ hw]
    simp [List.enum_length]
  refine ⟨?_, ?_, ?_, ?_⟩
  · rw [hstats, foldl_tallyStats_total]
  · rw [hstats]
    have hsum := foldl_tallyStats_sum newResults ⟨(selectedTests tc).length, 0, 0, 0, 0⟩
    have htot := foldl_tallyStats_total newResults ⟨(selectedTests tc).length, 0, 0, 0, 0⟩
    simp only [sumCounters] at hsum
    dsimp only at hsum htot
    rw [htot]
    omega
  · rw [hstats, htests, statsFrom]
  · intro r s
    exact ⟨counterOf_tallyStats_self r s, fun st hst => counterOf_tallyStats_other r s st hst⟩

theorem c8_stats_witness :
    runModel tcW1 (maxParallelTests 4) envW5 = some repW1
    ∧ repW1.stats.total = (selectedTests tcW1).length
    ∧ repW1.stats.passed + repW1.stats.failed + repW1.stats.skipped +
        repW1.stats.softFailed = repW1.stats.total := by
  have h := c8_stats tcW1 4 envW5 repW1 rfl
  exact ⟨rfl, h.1, h.2.1⟩

theorem assertRes_false_ne_error (isNot cond : Bool) (msg mat : String)
    (f : AssertFault) : assertRes isNot false cond msg mat ≠ .error f := by
  unfold assertRes
  cases isNot <;> cases cond <;> simp

/-- C10: `toBe` decides its pass condition by `Object.is` (SameValue)
semantics in both modes: it passes iff `sameValue received expected`.
In particular NaN `toBe` NaN passes while 0 `toBe` -0 fails - the
opposite of what the `===` operator decides on those pairs. -/
theorem c10_toBe_objectIs (a b : Value) (th : Bool) :
    (evalMatcher { received := a, isNot := false, throws := th } (.toBe b) =
      if sameValue a b then (if th then .ok .chained else .ok .boolTrue)
      else (if th then .error (.assertionError (diff a b).diffFormatted "toBe")
            else .ok .boolFalse))
    ∧ sameValue (.num .nan) (.num .nan) = true
    ∧ sameValue (.num (.val 0)) (.num .negZero) = false
    ∧ jsStrictEq (.num .nan) (.num .nan) = false
    ∧ jsStrictEq (.num (.val 0)) (.num .negZero) = true := by
  refine ⟨?_, rfl, rfl, rfl, by decide⟩
  simp only [evalMatcher, assertRes]
  cases h : sameValue a b <;> cases th <;> simp

/-- C3 (code bug): `trackedW` models a tracked function that was called
once and returned 42.  `toHaveReturnedWith` passes iff some recorded
return value DIFFERS from the expected value (`.some(rv =>
diff(rv, value).hasDiffs)`): with expected 42 - which was returned, as the
third conjunct certifies - it fails, and with expected 43 - which never
was - it passes; this contradicts the doc example of `Assertion.ts`
(lines 372-383) and the spec. -/
theorem c3_toHaveReturnedWith_bug :
    evalMatcher { received := .fn (some ([[]], [.num (.val 42)])) none,
                  isNot := false, throws := true }
        (.toHaveReturnedWith (.num (.val 42)))
      = .error (.assertionError
          "Expected function to have returned with the given value"
          "toHaveReturnedWith")
    ∧ evalMatcher { received := .fn (some ([[]], [.num (.val 42)])) none,
                    isNot := false, throws := true }
        (.toHaveReturnedWith (.num (.val 43)))
      = .ok .chained
    ∧ [Value.num (.val 42)].any (fun rv => vequal rv (.num (.val 42))) = true := by
  refine ⟨?_, ?_, ?_⟩ <;>
    simp [evalMatcher, diff, vequal, numEq, assertRes]

/-- C9 counterexample: in boolean (non-throwing) mode, `toBeInstanceOf`
applied to a null received value raises a TypeError (the source reads
`this.received.constructor`), although it is not a tracked-only matcher
and null is indeed not an instance of the expected class - so tracked-only
usage errors are not the single raising exception in boolean mode. -/
theorem c9_counterexample :
    evalMatcher { received := .null, isNot := false, throws := false }
        (.toBeInstanceOf "Date")
      = .error (.typeError
          "Cannot read properties of null or undefined (reading constructor)")
    ∧ trackedOnly (.toBeInstanceOf "Date") = false :=
  ⟨rfl, rfl⟩

/-- C9 (amended): in boolean mode a mismatch that reaches the assert gate
returns false, and no matcher can raise an AssertionError; every
tracked-only matcher applied to an untracked value raises its usage error
regardless of mode; but this usage error is not the single boolean-mode
exception, because some matchers raise a runtime TypeError before
reaching the gate (see the counterexample). -/
theorem c9_boolean_mode_amended :
    (∀ (isNot cond : Bool) (msg mat : String),
      (if isNot then !cond else cond) = false →
        assertRes isNot false cond msg mat = .ok .boolFalse)
    ∧ (∀ (m : MatcherCall) (st : AState) (msg mat : String),
        st.throws = false →
        evalMatcher st m ≠ .error (.assertionError msg mat))
    ∧ (∀ (m : MatcherCall) (st : AState), trackedOnly m = true →
        isTrackedV st.received = false →
        evalMatcher st m = .error (.usageError (usageMsg (matcherName m)))) := by
  refine ⟨?_, ?_, ?_⟩
  · intro isNot cond msg mat h
    unfold assertRes
    rw [h]
    simp
  · intro m st msg mat hth
    obtain ⟨recv, isNot, throws⟩ := st
    simp only at hth
    subst hth
    cases m <;> (simp only [evalMatcher]; repeat' split) <;>
      first
        | exact assertRes_false_ne_error _ _ _ _ _
        | simp
  · intro m st htm htr
    obtain ⟨recv, isNot, throws⟩ := st
    cases m <;> simp only [trackedOnly, Bool.false_eq_true] at htm <;>
      (cases recv <;>
        first
          | rfl
          | (rename_i tr cr
             cases tr <;> first | rfl | simp [isTrackedV] at htr))

theorem c9_boolean_mode_amended_witness :
    assertRes false false false "m" "t" = .ok .boolFalse
    ∧ evalMatcher { received := .num (.val 1), isNot := false, throws := false }
        .toBeNull ≠ .error (.assertionError "m" "t")
    ∧ evalMatcher { received := .num (.val 1), isNot := false, throws := false }
        .toHaveBeenCalled
        = .error (.usageError (usageMsg (matcherName .toHaveBeenCalled))) := by
  have h := c9_boolean_mode_amended
  exact ⟨h.1 false false "m" "t" rfl,
         h.2.1 .toBeNull _ "m" "t" rfl,
         h.2.2 .toHaveBeenCalled _ rfl rfl⟩

end Veve
